import Mathlib

/-!
Verification development for the visualix frontend job-lifecycle orchestrator.

The JavaScript source (JobContext reducer and orchestration callbacks,
ProcessPage tab derivation and polling effect, CleanupHandler unload hooks)
is shallowly embedded here.  JavaScript objects whose keys may be absent are
modelled as Lean structures whose fields are `Option`-valued: the outer
`Option` records whether the key is present, and for keys whose value may be
`null` an inner `Option` records nullness.  Object spread `\x7b...a, ...b\x7d`
becomes a field-wise override, and the reducer becomes a pure function
`JobState → Action → JobState`.
-/

namespace Visualix

/-- Video metadata attached to a job at upload time (HTTP contract of
`POST /video/upload`). -/
structure VideoMeta where
  filename : String
  format : String
  size : Nat
  duration : Nat
  width : Nat
  height : Nat
  fps : Nat
deriving DecidableEq, Repr

/-- A JavaScript job object.  Every field is optional: `none` means the key
is absent (JS `undefined`); for nullable keys the inner `Option` is `none`
when the stored value is JS `null`. -/
structure JobObj where
  job_id : Option String := none
  status : Option String := none
  progress : Option Nat := none
  message : Option String := none
  prompt : Option (Option String) := none
  video_metadata : Option (Option VideoMeta) := none
  workflow_execution : Option (Option String) := none
  output_url : Option (Option String) := none
  error : Option (Option String) := none
  created_at : Option String := none
deriving DecidableEq, Repr

/-- Response of `GET /video/formats`, also the shape of the built-in default. -/
structure SupportedFormats where
  supported_formats : List String
  max_file_size : Nat
  max_file_size_mb : Nat
deriving DecidableEq, Repr

/-- The JobContext store aggregate.  `supportedFormats` is `Option`-valued so
that non-nullness is a provable invariant rather than a typing artifact. -/
structure JobState where
  currentJob : Option JobObj
  jobHistory : List JobObj
  loading : Bool
  error : Option String
  supportedFormats : Option SupportedFormats
deriving DecidableEq, Repr

/-- Key-wise semantics of the JS object spread: a key present in the patch
wins, otherwise the key of the base object is kept. -/
def jsOverride {α : Type} (p : Option α) (j : Option α) : Option α :=
  match p with
  | some v => some v
  | none => j

/-- JS `\x7b...j, ...p\x7d` for two job objects, field by field. -/
def mergeJob (j p : JobObj) : JobObj where
  job_id := jsOverride p.job_id j.job_id
  status := jsOverride p.status j.status
  progress := jsOverride p.progress j.progress
  message := jsOverride p.message j.message
  prompt := jsOverride p.prompt j.prompt
  video_metadata := jsOverride p.video_metadata j.video_metadata
  workflow_execution := jsOverride p.workflow_execution j.workflow_execution
  output_url := jsOverride p.output_url j.output_url
  error := jsOverride p.error j.error
  created_at := jsOverride p.created_at j.created_at

/-- The action type of the JobContext reducer (`JobActions` in the source). -/
inductive Action where
  | setCurrentJob (payload : Option JobObj)
  | updateJobStatus (payload : JobObj)
  | setLoading (payload : Bool)
  | setError (payload : Option String)
  | clearError
  | addToHistory (payload : JobObj)
  | removeFromHistory (payload : String)
  | clearCurrentJob
  | setSupportedFormats (payload : SupportedFormats)
deriving DecidableEq, Repr

/-- The `ADD_TO_HISTORY` case of the reducer: `findIndex` on `job_id`,
replace in place when found, else prepend onto `slice(0, 9)`. -/
def addToHistory (hist : List JobObj) (payload : JobObj) : List JobObj :=
  match hist.findIdx? (fun job => job.job_id == payload.job_id) with
  | some i => hist.set i payload
  | none => payload :: hist.take 9

/-- The JobContext reducer (`jobReducer` in the source), case by case. -/
def jobReducer (state : JobState) (action : Action) : JobState :=
  match action with
  | .setCurrentJob payload =>
      { state with currentJob := payload, error := none }
  | .updateJobStatus payload =>
      match state.currentJob with
      | none => state
      | some cur =>
          if cur.job_id = payload.job_id then
            { state with currentJob := some (mergeJob cur payload) }
          else state
  | .setLoading payload =>
      { state with loading := payload }
  | .setError payload =>
      { state with error := payload, loading := false }
  | .clearError =>
      { state with error := none }
  | .addToHistory payload =>
      { state with jobHistory := addToHistory state.jobHistory payload }
  | .removeFromHistory payload =>
      { state with
          jobHistory := state.jobHistory.filter (fun job => job.job_id != some payload) }
  | .clearCurrentJob =>
      { state with currentJob := none, error := none }
  | .setSupportedFormats payload =>
      { state with supportedFormats := some payload }

/-- The built-in default of `initialState.supportedFormats`. -/
def defaultSupportedFormats : SupportedFormats where
  supported_formats := ["mp4", "avi", "mov", "mkv", "webm"]
  max_file_size := 104857600
  max_file_size_mb := 100

/-- `initialState` of the JobContext reducer. -/
def initialState : JobState where
  currentJob := none
  jobHistory := []
  loading := false
  error := none
  supportedFormats := some defaultSupportedFormats

/-- A sequence of dispatches applied to the store. -/
def applyActions (state : JobState) (actions : List Action) : JobState :=
  actions.foldl jobReducer state

/-- The error object reaching a catch block: `error.response?.data?.detail`
and `error.message`, each possibly absent. -/
structure ApiError where
  detail : Option String := none
  message : Option String := none
deriving DecidableEq, Repr

/-- JS `v || dflt` for string-valued `v` (`undefined`, `null` and the empty
string are falsy). -/
def jsOrString (v : Option String) (dflt : String) : String :=
  match v with
  | some s => if s = "" then dflt else s
  | none => dflt

/-- JS `v || dflt` for number-valued `v`. -/
def jsOrNat (v : Option Nat) (dflt : Nat) : Nat :=
  match v with
  | some n => if n = 0 then dflt else n
  | none => dflt

/-- JS `v || null` for a possibly-null string key. -/
def jsOrNull (v : Option (Option String)) : Option String :=
  match v with
  | some (some s) => if s = "" then none else some s
  | some none => none
  | none => none

/-- The error normalization of the catch blocks:
`error.response?.data?.detail || error.message || fallback`. -/
def normalizeError (e : ApiError) (fallback : String) : String :=
  jsOrString e.detail (jsOrString e.message fallback)

/-- Store effect of the `checkJobStatus` callback when the remote status call
succeeds: `UPDATE_JOB_STATUS` is dispatched only when the current job matches
the polled `jobId`, while `ADD_TO_HISTORY` is dispatched unconditionally. -/
def checkJobStatusOk (jobId : Option String) (status : JobObj) (state : JobState) :
    JobState :=
  let s1 :=
    match state.currentJob with
    | some cur =>
        if cur.job_id = jobId then jobReducer state (.updateJobStatus status)
        else state
    | none => state
  jobReducer s1 (.addToHistory status)

/-- Store effect of the `checkJobStatus` callback: on failure the error is
logged and rethrown, with no dispatch. -/
def checkJobStatus (jobId : Option String) (remote : Except ApiError JobObj)
    (state : JobState) : JobState :=
  match remote with
  | .ok status => checkJobStatusOk jobId status state
  | .error _ => state

/-- Store effect of the `deleteJob` callback.  The local removals sit after
`await apiService.deleteJob(jobId)` inside the `try` block, so on a remote
failure only a toast is shown and the error is rethrown: no dispatch runs. -/
def deleteJob (jobId : String) (remote : Except ApiError Unit) (state : JobState) :
    JobState :=
  match remote with
  | .ok _ =>
      let s1 :=
        match state.currentJob with
        | some cur =>
            if cur.job_id = some jobId then jobReducer state .clearCurrentJob
            else state
        | none => state
      jobReducer s1 (.removeFromHistory jobId)
  | .error _ => state

/-- Store effect of the `submitPrompt` callback (Phase 1): spread the current
job, attach the prompt and a transitional message, then dispatch
`UPDATE_JOB_STATUS` and `ADD_TO_HISTORY` with that object.  The `jobId`
argument is only logged in the source. -/
def submitPrompt (jobId : Option String) (prompt : String) (state : JobState) :
    JobState :=
  let base := state.currentJob.getD {}
  let updatedJob : JobObj :=
    { base with
        prompt := some (some prompt)
        message := some "Preparing to process..." }
  jobReducer (jobReducer state (.updateJobStatus updatedJob)) (.addToHistory updatedJob)

/-- Store effect of the `forceStatusUpdate` callback: dispatch
`UPDATE_JOB_STATUS` then `ADD_TO_HISTORY` with the given object. -/
def forceStatusUpdate (jobUpdate : JobObj) (state : JobState) : JobState :=
  jobReducer (jobReducer state (.updateJobStatus jobUpdate)) (.addToHistory jobUpdate)

/-- Store effect of the `processVideo` callback.  `closureJob` is the
`state.currentJob` captured by the `useCallback` closure.  On success the job
object rebuilt from the response is dispatched; on failure `SET_ERROR`
receives the normalized message and the current job is not touched. -/
def processVideo (closureJob : Option JobObj) (jobId : String) (prompt : String)
    (remote : Except ApiError JobObj) (state : JobState) : JobState :=
  let s1 := jobReducer state (.setLoading true)
  let s2 := jobReducer s1 .clearError
  match remote with
  | .ok result =>
      let base := closureJob.getD {}
      let updatedJob : JobObj :=
        { job_id := some (jsOrString result.job_id jobId)
          status := some (jsOrString result.status "processing")
          progress := some (jsOrNat result.progress 0)
          message := some (jsOrString result.message "Processing started")
          prompt := some (some prompt)
          video_metadata := base.video_metadata
          workflow_execution := some (jsOrNull result.workflow_execution)
          output_url := some (jsOrNull result.output_url)
          error := some (jsOrNull result.error)
          created_at := base.created_at }
      let s3 := jobReducer s2 (.updateJobStatus updatedJob)
      let s4 := jobReducer s3 (.addToHistory updatedJob)
      jobReducer s4 (.setLoading false)
  | .error e =>
      let s3 := jobReducer s2 (.setError (some (normalizeError e "Processing failed")))
      jobReducer s3 (.setLoading false)

/-- Store effect of the startup `loadSupportedFormats` call: on success the
formats are stored; on failure the error is only logged, with no dispatch. -/
def loadSupportedFormats (remote : Except ApiError SupportedFormats)
    (state : JobState) : JobState :=
  match remote with
  | .ok formats => jobReducer state (.setSupportedFormats formats)
  | .error _ => state

/-- Local (pre-remote) part of `handleProcessVideo` on ProcessPage:
Phase 1 `submitPrompt`, then the optimistic `forceStatusUpdate` with
status `"processing"`, built from the render-time closure job. -/
def handleProcessVideoLocal (closureJob : JobObj) (prompt : String)
    (state : JobState) : JobState :=
  let s1 := submitPrompt closureJob.job_id prompt state
  let forceProcessingState : JobObj :=
    { closureJob with
        status := some "processing"
        message := some "AI processing started - sit back and relax!"
        prompt := some (some prompt) }
  forceStatusUpdate forceProcessingState s1

/-- JS truthiness of a job's `prompt` key (`undefined`, `null` and `""` are
falsy). -/
def promptTruthy (p : Option (Option String)) : Bool :=
  match p with
  | some (some s) => s ≠ ""
  | some none => false
  | none => false

/-- `getTabStatus` on ProcessPage, translated branch by branch. -/
def getTabStatus (currentJob : Option JobObj) (tabId : String) : String :=
  match currentJob with
  | none => if tabId = "upload" then "active" else "disabled"
  | some job =>
      if tabId = "upload" then "completed"
      else if tabId = "prompt" then
        if promptTruthy job.prompt then "completed"
        else if job.status = some "pending" then "active"
        else "disabled"
      else if tabId = "status" then
        if job.status = some "processing" ∨ job.status = some "completed" ∨
            job.status = some "failed" then "active"
        else if promptTruthy job.prompt then "ready"
        else "disabled"
      else "disabled"

/-- The step/tab rule table as the specification words it: Upload is
completed once a job exists and active otherwise; Describe is completed iff
the job's prompt is set, active iff status is pending with no prompt, else
disabled; Process is active iff status is processing, completed or failed,
ready iff the prompt is set and the step is not yet active, else disabled. -/
def specTabStatus (currentJob : Option JobObj) (tabId : String) : String :=
  let promptSet : Bool :=
    match currentJob with
    | some job =>
        match job.prompt with
        | some (some s) => s ≠ ""
        | some none => false
        | none => false
    | none => false
  let status : Option String := currentJob.bind (fun job => job.status)
  let processActive : Bool :=
    status = some "processing" ∨ status = some "completed" ∨ status = some "failed"
  if tabId = "upload" then
    if currentJob.isSome then "completed" else "active"
  else if tabId = "prompt" then
    if promptSet then "completed"
    else if status = some "pending" ∧ promptSet = false then "active"
    else "disabled"
  else if tabId = "status" then
    if processActive then "active"
    else if promptSet ∧ processActive = false then "ready"
    else "disabled"
  else "disabled"

/-! ## Polling effect model (ProcessPage `useEffect`)

The polling `useEffect` on ProcessPage is modelled as a transition system.
A live interval is a `PollTimer` carrying a fresh identifier and the
`currentJob.job_id` captured by the effect closure.  `prevCleanup` is the
timer the pending effect-cleanup function would clear (React runs the
previous cleanup before re-running the effect body); `statusPolling` mirrors
the component state variable of the same name. -/

/-- A live `setInterval` handle of the polling effect. -/
structure PollTimer where
  id : Nat
  jobId : Option String
deriving DecidableEq, Repr

/-- ProcessPage polling machinery together with the store. -/
structure PollSys where
  store : JobState
  timers : List PollTimer
  nextId : Nat
  prevCleanup : Option PollTimer
  statusPolling : Option PollTimer
deriving DecidableEq, Repr

/-- Run the cleanup function returned by the previous effect body:
`clearInterval(checkInterval)` on the timer it created, if any. -/
def clearPrev (s : PollSys) : List PollTimer :=
  match s.prevCleanup with
  | some t => s.timers.erase t
  | none => s.timers

/-- The `else` branch of the effect body: clear `statusPolling` if set, and
return no cleanup function. -/
def effectElse (s : PollSys) (ts : List PollTimer) : PollSys :=
  match s.statusPolling with
  | some t => { s with timers := ts.erase t, prevCleanup := none, statusPolling := none }
  | none => { s with timers := ts, prevCleanup := none }

/-- One run of the polling effect: previous cleanup first, then the body.
While `currentJob.status === "processing"` a fresh interval is created and
becomes both the new cleanup target and `statusPolling`. -/
def effectRun (s : PollSys) : PollSys :=
  let ts := clearPrev s
  match s.store.currentJob with
  | some cur =>
      if cur.status = some "processing" then
        let t : PollTimer := { id := s.nextId, jobId := cur.job_id }
        { s with
            timers := ts ++ [t]
            nextId := s.nextId + 1
            prevCleanup := some t
            statusPolling := some t }
      else effectElse s ts
  | none => effectElse s ts

/-- A store dispatch from outside the polling loop, followed by a re-run of
the effect when its `currentJob` dependency changed. -/
def stepExternal (a : Action) (s : PollSys) : PollSys :=
  let st := jobReducer s.store a
  let s1 : PollSys := { s with store := st }
  if st.currentJob = s.store.currentJob then s1 else effectRun s1

/-- One firing of interval `t` with a successful poll response `resp`:
`checkJobStatus(currentJob.job_id)` is applied to the store, the interval
clears itself when the response is not `"processing"`, and the effect
re-runs when `currentJob` changed. -/
def stepTick (t : PollTimer) (resp : JobObj) (s : PollSys) : PollSys :=
  let st := checkJobStatusOk t.jobId resp s.store
  let s1 : PollSys :=
    { s with
        store := st
        timers := if resp.status = some "processing" then s.timers else s.timers.erase t
        statusPolling :=
          if resp.status = some "processing" then s.statusPolling else none }
  if st.currentJob = s.store.currentJob then s1 else effectRun s1

/-- Steps of the polling system: an external dispatch, a successful tick of a
live interval, or a failed tick (the poll error is logged and the loop keeps
running, nothing changes). -/
inductive PStep : PollSys → PollSys → Prop where
  | external (a : Action) (s : PollSys) : PStep s (stepExternal a s)
  | tickOk (t : PollTimer) (resp : JobObj) (s : PollSys) :
      t ∈ s.timers → PStep s (stepTick t resp s)
  | tickFail (t : PollTimer) (s : PollSys) : t ∈ s.timers → PStep s s

/-- The polling system at mount time. -/
def pollInit : PollSys where
  store := initialState
  timers := []
  nextId := 0
  prevCleanup := none
  statusPolling := none

/-- Reachable polling-system states. -/
inductive PollReachable : PollSys → Prop where
  | init : PollReachable pollInit
  | step {s s' : PollSys} : PollReachable s → PStep s s' → PollReachable s'

/-! ## Cleanup-on-unload model (CleanupHandler) -/

/-- Transport of an outgoing cleanup request: `navigator.sendBeacon` versus a
normal awaited axios call. -/
inductive Transport where
  | beacon
  | axios
deriving DecidableEq, Repr

/-- A delete request issued by the cleanup protocol. -/
structure CleanupRequest where
  transport : Transport
  job_id : Option String
deriving DecidableEq, Repr

/-- Requests issued by `handleBeforeUnload`: one `sendBeacon` delete for the
current job when it exists and is not completed. -/
def handleBeforeUnload (currentJob : Option JobObj) : List CleanupRequest :=
  match currentJob with
  | some c =>
      if c.status ≠ some "completed" then [{ transport := .beacon, job_id := c.job_id }]
      else []
  | none => []

/-- Requests issued by the `cleanup` function run from the `unload` handler:
awaited deletes for the incomplete current job and for every pending or
processing history entry. -/
def cleanupOnUnload (currentJob : Option JobObj) (jobHistory : List JobObj) :
    List CleanupRequest :=
  (match currentJob with
   | some c =>
       if c.status ≠ some "completed" then [{ transport := .axios, job_id := c.job_id }]
       else []
   | none => []) ++
  (jobHistory.filter
      (fun job => job.status == some "pending" || job.status == some "processing")).map
    (fun job => { transport := .axios, job_id := job.job_id })

/-- Requests issued by `handleVisibilityChange`: none, for any visibility
state — the handler only logs. -/
def handleVisibilityChange (visibilityState : String) : List CleanupRequest := []

/-- All requests issued across a full page unload (`beforeunload` then
`unload`). -/
def unloadRequests (currentJob : Option JobObj) (jobHistory : List JobObj) :
    List CleanupRequest :=
  handleBeforeUnload currentJob ++ cleanupOnUnload currentJob jobHistory

/-! ## Concrete fixtures used by witnesses and counterexamples -/

/-- A current job `"xyz"` in the middle of processing. -/
def jobXyz : JobObj where
  job_id := some "xyz"
  status := some "processing"
  progress := some 40
  message := some "Processing started"
  prompt := some (some "make it vintage")
  video_metadata := some none
  workflow_execution := some none
  output_url := some none
  error := some none
  created_at := some "2024-01-01T00:00:00Z"

/-- A poll response for a different job `"abc"` reporting completion. -/
def respAbc : JobObj where
  job_id := some "abc"
  status := some "completed"
  progress := some 100
  message := some "done"
  output_url := some (some "/video/result/abc")

/-- A store currently tracking `jobXyz`, with it alone in history. -/
def stateXyz : JobState where
  currentJob := some jobXyz
  jobHistory := [jobXyz]
  loading := false
  error := none
  supportedFormats := some defaultSupportedFormats

/-- A connectivity failure as normalized by the axios response interceptor. -/
def netError : ApiError where
  message := some "Network error. Please check your connection."

/-! ## Helper lemmas -/

lemma jsOverride_self {α : Type} (a : Option α) : jsOverride a a = a := by
  cases a <;> rfl

lemma currentJob_reducer_addToHistory (s : JobState) (p : JobObj) :
    (jobReducer s (.addToHistory p)).currentJob = s.currentJob := rfl

lemma jobHistory_reducer_addToHistory (s : JobState) (p : JobObj) :
    (jobReducer s (.addToHistory p)).jobHistory = addToHistory s.jobHistory p := rfl

/-! ## Claims -/

/-- C2: for every state and `UPDATE_JOB_STATUS` payload, the reducer is a
no-op when `currentJob` is null or its `job_id` differs from the payload's,
and merges the payload's fields into `currentJob` when the `job_id` matches. -/
theorem updateJobStatus_guard (s : JobState) (p : JobObj) :
    (s.currentJob = none → jobReducer s (.updateJobStatus p) = s) ∧
    (∀ cur, s.currentJob = some cur → cur.job_id ≠ p.job_id →
      jobReducer s (.updateJobStatus p) = s) ∧
    (∀ cur, s.currentJob = some cur → cur.job_id = p.job_id →
      jobReducer s (.updateJobStatus p)
        = { s with currentJob := some (mergeJob cur p) }) := by
  refine ⟨?_, ?_, ?_⟩
  · intro h
    simp [jobReducer, h]
  · intro cur h hne
    simp [jobReducer, h, hne]
  · intro cur h he
    simp [jobReducer, h, he]

/-- Witness for C2: a stale payload for job `"abc"` leaves the store tracking
`"xyz"` unchanged. -/
theorem updateJobStatus_guard_witness :
    jobReducer stateXyz (.updateJobStatus respAbc) = stateXyz :=
  (updateJobStatus_guard stateXyz respAbc).2.1 jobXyz rfl (by decide)

/-- C6: when the remote start-processing call fails, the store's `error`
field holds the normalized message and `currentJob` — hence its `status` —
keeps its last known value: the optimistic write is not rolled back. -/
theorem processVideo_failure (closureJob : Option JobObj) (jobId prompt : String)
    (e : ApiError) (s : JobState) :
    (processVideo closureJob jobId prompt (.error e) s).error
      = some (normalizeError e "Processing failed") ∧
    (processVideo closureJob jobId prompt (.error e) s).currentJob
      = s.currentJob := by
  simp [processVideo, jobReducer]

/-- C10: `supportedFormats` starts as the built-in default with the exact
format list and size limits, a failed startup formats call leaves the whole
store (including `error`) unchanged, and in every store state reachable by
dispatches from the initial one `supportedFormats` is non-null. -/
theorem supportedFormats_invariant :
    initialState.supportedFormats = some defaultSupportedFormats ∧
    defaultSupportedFormats
      = { supported_formats := ["mp4", "avi", "mov", "mkv", "webm"],
          max_file_size := 104857600, max_file_size_mb := 100 } ∧
    (∀ (e : ApiError) (s : JobState), loadSupportedFormats (.error e) s = s) ∧
    (∀ (actions : List Action),
      (applyActions initialState actions).supportedFormats.isSome) := by
  refine ⟨rfl, rfl, fun _ _ => rfl, ?_⟩
  have pres : ∀ (s : JobState) (a : Action),
      s.supportedFormats.isSome → (jobReducer s a).supportedFormats.isSome := by
    intro s a hs
    cases a with
    | updateJobStatus p =>
        cases hcur : s.currentJob with
        | none => simpa [jobReducer, hcur] using hs
        | some cur =>
            by_cases he : cur.job_id = p.job_id <;>
              simpa [jobReducer, hcur, he] using hs
    | setSupportedFormats f => simp [jobReducer]
    | setCurrentJob p => simpa [jobReducer] using hs
    | setLoading b => simpa [jobReducer] using hs
    | setError m => simpa [jobReducer] using hs
    | clearError => simpa [jobReducer] using hs
    | addToHistory p => simpa [jobReducer] using hs
    | removeFromHistory j => simpa [jobReducer] using hs
    | clearCurrentJob => simpa [jobReducer] using hs
  have key : ∀ (actions : List Action) (s : JobState),
      s.supportedFormats.isSome → (applyActions s actions).supportedFormats.isSome := by
    intro actions
    induction actions with
    | nil => intro s hs; exact hs
    | cons a rest ih => intro s hs; exact ih (jobReducer s a) (pres s a hs)
  intro actions
  exact key actions initialState (by simp [initialState])

/-- C1 counterexample: a poll response for job `"abc"` reporting completion
arriving while the current job is `"xyz"` does NOT leave the store unchanged:
the guard protects `currentJob`, but the response is still upserted into
`jobHistory`. -/
theorem checkJobStatus_mismatch_counterexample :
    checkJobStatus (some "abc") (.ok respAbc) stateXyz ≠ stateXyz := by decide

/-- C1 (amended): a poll response for a job other than the current one leaves
`currentJob`, `loading` and `error` unchanged, but is upserted into
`jobHistory` by the unconditional `ADD_TO_HISTORY` dispatch. -/
theorem checkJobStatus_mismatch (jobId : Option String) (resp : JobObj)
    (s : JobState) (cur : JobObj) (hcur : s.currentJob = some cur)
    (hne : cur.job_id ≠ jobId) :
    (checkJobStatus jobId (.ok resp) s).currentJob = s.currentJob ∧
    (checkJobStatus jobId (.ok resp) s).loading = s.loading ∧
    (checkJobStatus jobId (.ok resp) s).error = s.error ∧
    (checkJobStatus jobId (.ok resp) s).jobHistory
      = addToHistory s.jobHistory resp := by
  simp [checkJobStatus, checkJobStatusOk, hcur, hne, jobReducer]

/-- Witness for C1 (amended): the completed-`"abc"` response while `"xyz"` is
current keeps `currentJob`, `loading` and `error`, and upserts into history. -/
theorem checkJobStatus_mismatch_witness :
    (checkJobStatus (some "abc") (.ok respAbc) stateXyz).currentJob
        = stateXyz.currentJob ∧
    (checkJobStatus (some "abc") (.ok respAbc) stateXyz).loading
        = stateXyz.loading ∧
    (checkJobStatus (some "abc") (.ok respAbc) stateXyz).error = stateXyz.error ∧
    (checkJobStatus (some "abc") (.ok respAbc) stateXyz).jobHistory
        = addToHistory stateXyz.jobHistory respAbc :=
  checkJobStatus_mismatch (some "abc") respAbc stateXyz jobXyz rfl (by decide)

/-- C4 counterexample: when the remote DELETE for the current job `"xyz"`
fails, the job is NOT removed locally: `currentJob` stays set and the job
remains in history, because the removal dispatches sit after the `await`
inside the `try` block. -/
theorem deleteJob_failure_counterexample :
    (deleteJob "xyz" (.error netError) stateXyz).currentJob = some jobXyz ∧
    jobXyz ∈ (deleteJob "xyz" (.error netError) stateXyz).jobHistory := by
  decide

/-- C4 (amended): a failing remote DELETE leaves the store entirely
unchanged (the error is surfaced as a toast and rethrown, and the local
removal is skipped); only a successful DELETE removes the job from history
and clears `currentJob` when it was that job. -/
theorem deleteJob_outcome (jobId : String) (e : ApiError) (s : JobState) :
    deleteJob jobId (.error e) s = s ∧
    (deleteJob jobId (.ok ()) s).jobHistory
      = s.jobHistory.filter (fun job => job.job_id != some jobId) ∧
    (∀ cur, s.currentJob = some cur → cur.job_id = some jobId →
      (deleteJob jobId (.ok ()) s).currentJob = none) ∧
    (∀ cur, s.currentJob = some cur → cur.job_id ≠ some jobId →
      (deleteJob jobId (.ok ()) s).currentJob = s.currentJob) := by
  refine ⟨rfl, ?_, ?_, ?_⟩
  · cases hcur : s.currentJob with
    | none => simp [deleteJob, hcur, jobReducer]
    | some cur =>
        by_cases he : cur.job_id = some jobId <;>
          simp [deleteJob, hcur, he, jobReducer]
  · intro cur hcur he
    simp [deleteJob, hcur, he, jobReducer]
  · intro cur hcur hne
    simp [deleteJob, hcur, hne, jobReducer]

/-- Witness for C4 (amended): concrete failing and succeeding DELETEs for the
current job `"xyz"`. -/
theorem deleteJob_outcome_witness :
    deleteJob "xyz" (.error netError) stateXyz = stateXyz ∧
    (deleteJob "xyz" (.ok ()) stateXyz).currentJob = none :=
  ⟨(deleteJob_outcome "xyz" netError stateXyz).1,
   (deleteJob_outcome "xyz" netError stateXyz).2.2.1 jobXyz rfl (by decide)⟩

/-- C5: with a current job, Phase 1 (`submitPrompt`) preserves `status` and
sets `prompt` to the submitted text, and after Phase 2's optimistic
`forceStatusUpdate` inside `handleProcessVideo` the current job's `status`
is `"processing"` before the remote call resolves. -/
theorem twoPhase_submission (s : JobState) (cur : JobObj) (p : String)
    (hcur : s.currentJob = some cur) :
    (submitPrompt cur.job_id p s).currentJob.map JobObj.status
        = some cur.status ∧
    (submitPrompt cur.job_id p s).currentJob.map JobObj.prompt
        = some (some (some p)) ∧
    (handleProcessVideoLocal cur p s).currentJob.map JobObj.status
        = some (some "processing") := by
  have h1 : (submitPrompt cur.job_id p s).currentJob
      = some (mergeJob cur
          { cur with
              prompt := some (some p)
              message := some "Preparing to process..." }) := by
    simp [submitPrompt, hcur, jobReducer]
  have hjid : (mergeJob cur
      { cur with
          prompt := some (some p)
          message := some "Preparing to process..." }).job_id = cur.job_id := by
    simp [mergeJob, jsOverride_self]
  have h2 : (handleProcessVideoLocal cur p s).currentJob
      = some (mergeJob
          (mergeJob cur
            { cur with
                prompt := some (some p)
                message := some "Preparing to process..." })
          { cur with
              status := some "processing"
              message := some "AI processing started - sit back and relax!"
              prompt := some (some p) }) := by
    simp [handleProcessVideoLocal, forceStatusUpdate, jobReducer, h1, hjid]
  refine ⟨?_, ?_, ?_⟩
  · simp [h1, mergeJob, jsOverride_self]
  · simp [h1, mergeJob, jsOverride]
  · simp [h2, mergeJob, jsOverride]

/-- Witness for C5: the two-phase submission on the concrete store tracking
`"xyz"`. -/
theorem twoPhase_submission_witness :
    (submitPrompt jobXyz.job_id "add rain" stateXyz).currentJob.map JobObj.status
        = some jobXyz.status ∧
    (submitPrompt jobXyz.job_id "add rain" stateXyz).currentJob.map JobObj.prompt
        = some (some (some "add rain")) ∧
    (handleProcessVideoLocal jobXyz "add rain" stateXyz).currentJob.map
        JobObj.status = some (some "processing") :=
  twoPhase_submission stateXyz jobXyz "add rain" rfl

/-- C7: the tab/step derivation is the pure function `getTabStatus` of
`(currentJob, tabId)` and agrees with the specification's rule table
(`specTabStatus`) on every input, so identical inputs always yield identical
outputs. -/
theorem getTabStatus_matches_spec (currentJob : Option JobObj) (tabId : String) :
    getTabStatus currentJob tabId = specTabStatus currentJob tabId := by
  cases currentJob with
  | none =>
      by_cases h1 : tabId = "upload" <;>
        by_cases h2 : tabId = "prompt" <;>
          by_cases h3 : tabId = "status" <;>
            simp [getTabStatus, specTabStatus, h1, h2, h3]
  | some job =>
      by_cases h1 : tabId = "upload" <;>
        by_cases h2 : tabId = "prompt" <;>
          by_cases h3 : tabId = "status" <;>
            simp [getTabStatus, specTabStatus, h1, h2, h3, promptTruthy] <;>
              split_ifs <;> simp_all [promptTruthy]

/-- C3: the job history never exceeds 10 entries under any sequence of
`ADD_TO_HISTORY` upserts; a payload whose `job_id` already appears replaces
that entry in place (same position), and a new `job_id` is prepended onto the
first 9 entries, truncating to the 10 most recent and evicting the oldest. -/
theorem history_bounded_upsert :
    (∀ (payloads : List JobObj),
        (payloads.foldl addToHistory initialState.jobHistory).length ≤ 10) ∧
    (∀ (hist : List JobObj) (payload : JobObj),
        hist.length ≤ 10 → (addToHistory hist payload).length ≤ 10) ∧
    (∀ (hist : List JobObj) (payload : JobObj),
        (∃ job ∈ hist, job.job_id = payload.job_id) →
        ∃ i, ∃ h : i < hist.length,
          (hist.get ⟨i, h⟩).job_id = payload.job_id ∧
          addToHistory hist payload = hist.set i payload) ∧
    (∀ (hist : List JobObj) (payload : JobObj),
        (∀ job ∈ hist, job.job_id ≠ payload.job_id) →
        addToHistory hist payload = payload :: hist.take 9) := by
  have step : ∀ (hist : List JobObj) (payload : JobObj),
      hist.length ≤ 10 → (addToHistory hist payload).length ≤ 10 := by
    intro hist payload hlen
    unfold addToHistory
    cases hf : hist.findIdx? (fun job => job.job_id == payload.job_id) with
    | some i => simpa [List.length_set] using hlen
    | none =>
        have h9 : (hist.take 9).length ≤ 9 := by
          simp [List.length_take]
        simp only [List.length_cons]
        omega
  refine ⟨?_, step, ?_, ?_⟩
  · have key : ∀ (payloads : List JobObj) (hist : List JobObj),
        hist.length ≤ 10 → (payloads.foldl addToHistory hist).length ≤ 10 := by
      intro payloads
      induction payloads with
      | nil => intro hist h; exact h
      | cons payload rest ih =>
          intro hist h
          exact ih (addToHistory hist payload) (step hist payload h)
    intro payloads
    exact key payloads initialState.jobHistory (by simp [initialState])
  · intro hist payload hex
    have hne : hist.findIdx? (fun job => job.job_id == payload.job_id) ≠ none := by
      intro hnone
      rw [List.findIdx?_eq_none_iff] at hnone
      obtain ⟨job, hmem, heq⟩ := hex
      have := hnone job hmem
      simp [heq] at this
    obtain ⟨i, hi⟩ := Option.ne_none_iff_exists.mp hne
    have hfi := hi.symm
    obtain ⟨hlt, hp, _⟩ := List.findIdx?_eq_some_iff_getElem.mp hfi
    refine ⟨i, hlt, ?_, ?_⟩
    · simpa [List.get_eq_getElem] using beq_iff_eq.mp hp
    · unfold addToHistory
      rw [hfi]
  · intro hist payload hall
    have hnone : hist.findIdx? (fun job => job.job_id == payload.job_id) = none := by
      rw [List.findIdx?_eq_none_iff]
      intro job hmem
      simpa using hall job hmem
    unfold addToHistory
    rw [hnone]

/-- Witness for C3: upserting the new job `"abc"` into the one-entry history
of `"xyz"` prepends it, and the bound holds on that input. -/
theorem history_bounded_upsert_witness :
    addToHistory [jobXyz] respAbc = respAbc :: [jobXyz].take 9 ∧
    (addToHistory [jobXyz] respAbc).length ≤ 10 :=
  ⟨history_bounded_upsert.2.2.2 [jobXyz] respAbc (by decide),
   history_bounded_upsert.2.1 [jobXyz] respAbc (by decide)⟩

/-- C9: on a full page unload with an incomplete current job exactly one
beacon-style (fire-and-forget) delete request is issued, targeting the
current job's id — the `unload`-time `cleanup` calls use the awaited
transport instead — and a visibility change never issues any request. -/
theorem unload_beacon_discipline (cur : JobObj) (hist : List JobObj)
    (h : cur.status ≠ some "completed") :
    (unloadRequests (some cur) hist).filter
        (fun r => r.transport == Transport.beacon)
      = [{ transport := .beacon, job_id := cur.job_id }] ∧
    (∀ v, handleVisibilityChange v = []) := by
  constructor
  · simp [unloadRequests, handleBeforeUnload, cleanupOnUnload, h,
      List.filter_append, List.filter_map, Function.comp]
  · intro v
    rfl

/-- Witness for C9: the processing job `"xyz"` triggers exactly one beacon
delete for `"xyz"` on unload, and a hidden-visibility change none. -/
theorem unload_beacon_discipline_witness :
    (unloadRequests (some jobXyz) [jobXyz]).filter
        (fun r => r.transport == Transport.beacon)
      = [{ transport := .beacon, job_id := jobXyz.job_id }] ∧
    (∀ v, handleVisibilityChange v = []) :=
  unload_beacon_discipline jobXyz [jobXyz] (by decide)

/-! ## Polling invariant (C8) -/

/-- Inductive invariant of the polling system: at most one interval is live,
and a live interval is exactly the one the last effect run created, polls the
current job's id, and exists only while that job is processing. -/
def PollInv (s : PollSys) : Prop :=
  s.timers.length ≤ 1 ∧
  ∀ t ∈ s.timers,
    s.prevCleanup = some t ∧ s.statusPolling = some t ∧ t.id < s.nextId ∧
    ∃ cur, s.store.currentJob = some cur ∧ cur.status = some "processing" ∧
      t.jobId = cur.job_id

lemma mem_of_length_le_one {α : Type} {l : List α} {t : α} (h : t ∈ l)
    (hl : l.length ≤ 1) : l = [t] := by
  match l with
  | [] => cases h
  | [a] =>
      simp only [List.mem_singleton] at h
      rw [h]
  | a :: b :: r =>
      simp only [List.length_cons] at hl
      omega

lemma clearPrev_nil (s : PollSys) (hlen : s.timers.length ≤ 1)
    (hprev : ∀ t ∈ s.timers, s.prevCleanup = some t) : clearPrev s = [] := by
  cases htm : s.timers with
  | nil =>
      unfold clearPrev
      cases s.prevCleanup <;> simp [htm]
  | cons t rest =>
      have hrest : rest = [] := by
        rw [htm] at hlen
        simp only [List.length_cons] at hlen
        exact List.length_eq_zero.mp (by omega)
      subst hrest
      have hp := hprev t (by rw [htm]; exact List.mem_cons_self t [])
      unfold clearPrev
      rw [hp, htm]
      simp

lemma clearPrev_of_nil {s : PollSys} (h : s.timers = []) : clearPrev s = [] := by
  unfold clearPrev
  cases s.prevCleanup <;> simp [h]

lemma pollInv_effectElse (s : PollSys) : PollInv (effectElse s []) := by
  unfold effectElse PollInv
  cases s.statusPolling <;>
    exact ⟨by simp, by intro u hu; simp at hu⟩

lemma pollInv_effectRun (s : PollSys) (hlen : s.timers.length ≤ 1)
    (hprev : ∀ t ∈ s.timers, s.prevCleanup = some t) : PollInv (effectRun s) := by
  have hnil := clearPrev_nil s hlen hprev
  unfold effectRun
  rw [hnil]
  cases hcur : s.store.currentJob with
  | none => exact pollInv_effectElse s
  | some cur =>
      dsimp only
      by_cases hst : cur.status = some "processing"
      · rw [if_pos hst]
        refine ⟨by simp, ?_⟩
        intro t ht
        simp only [List.nil_append, List.mem_singleton] at ht
        subst ht
        exact ⟨rfl, rfl, Nat.lt_succ_self _, cur, hcur, hst, rfl⟩
      · rw [if_neg hst]
        exact pollInv_effectElse s

lemma pollInv_stepExternal (a : Action) (s : PollSys) (hs : PollInv s) :
    PollInv (stepExternal a s) := by
  obtain ⟨hlen, hall⟩ := hs
  simp only [stepExternal]
  split
  case isTrue hc =>
      refine ⟨hlen, ?_⟩
      intro t ht
      obtain ⟨hp, hsp, hid, cur, hcur, hst, hjid⟩ := hall t ht
      exact ⟨hp, hsp, hid, cur, by simpa [hc] using hcur, hst, hjid⟩
  case isFalse hc =>
      exact pollInv_effectRun _ hlen (fun t ht => (hall t ht).1)

lemma pollInv_stepTick (t : PollTimer) (resp : JobObj) (s : PollSys)
    (hmem : t ∈ s.timers) (hs : PollInv s) : PollInv (stepTick t resp s) := by
  obtain ⟨hlen, hall⟩ := hs
  obtain ⟨hp, hsp, hid, cur, hcur, hst, hjid⟩ := hall t hmem
  have htimers : s.timers = [t] := mem_of_length_le_one hmem hlen
  simp only [stepTick]
  by_cases hr : resp.status = some "processing"
  · simp only [hr, if_pos rfl, if_true]
    split
    next hc =>
        refine ⟨hlen, ?_⟩
        intro u hu
        have hu' : u = t := by
          rw [htimers] at hu
          simpa using hu
        subst hu'
        exact ⟨hp, hsp, hid, cur, by simpa [hc] using hcur, hst, hjid⟩
    next hc =>
        refine pollInv_effectRun _ hlen ?_
        intro u hu
        exact (hall u hu).1
  · simp only [if_neg hr]
    have herase : s.timers.erase t = [] := by
      rw [htimers]
      simp
    split
    next hc =>
        refine ⟨by simp [herase], ?_⟩
        intro u hu
        simp [herase] at hu
    next hc =>
        refine pollInv_effectRun _ (by simp [herase]) ?_
        intro u hu
        simp [herase] at hu

lemma pollInv_pstep {s s' : PollSys} (hstep : PStep s s') (hs : PollInv s) :
    PollInv s' := by
  cases hstep with
  | external a s => exact pollInv_stepExternal a s hs
  | tickOk t resp s hmem => exact pollInv_stepTick t resp s hmem hs
  | tickFail t s hmem => exact hs

lemma pollInv_reachable {s : PollSys} (h : PollReachable s) : PollInv s := by
  induction h with
  | init =>
      exact ⟨by simp [pollInit], by intro t ht; simp [pollInit] at ht⟩
  | step hr hstep ih => exact pollInv_pstep hstep ih

lemma effectRun_mem {s : PollSys} {u : PollTimer}
    (hu : u ∈ (effectRun s).timers) : u ∈ clearPrev s ∨ u.id = s.nextId := by
  unfold effectRun at hu
  rcases hcur : s.store.currentJob with _ | cur
  · rw [hcur] at hu
    unfold effectElse at hu
    cases hsp : s.statusPolling <;> rw [hsp] at hu
    · simp at hu
      exact Or.inl hu
    · simp at hu
      exact Or.inl (List.mem_of_mem_erase hu)
  · rw [hcur] at hu
    dsimp only at hu
    by_cases hst : cur.status = some "processing"
    · rw [if_pos hst] at hu
      simp only [List.mem_append, List.mem_singleton] at hu
      rcases hu with hu | hu
      · exact Or.inl hu
      · exact Or.inr (by rw [hu])
    · rw [if_neg hst] at hu
      unfold effectElse at hu
      cases hsp : s.statusPolling <;> rw [hsp] at hu
      · simp at hu
        exact Or.inl hu
      · simp at hu
        exact Or.inl (List.mem_of_mem_erase hu)

/-- C8: in every reachable polling-system state at most one interval timer is
live (starting the loop again first clears the previous one), a live timer
implies the current job's status is `"processing"`, and a tick whose response
reports a non-`"processing"` status clears its own interval without waiting
for an external stop signal. -/
theorem polling_discipline (s : PollSys) (h : PollReachable s) :
    s.timers.length ≤ 1 ∧
    (∀ t ∈ s.timers, ∃ cur, s.store.currentJob = some cur ∧
      cur.status = some "processing") ∧
    (∀ (t : PollTimer) (resp : JobObj), t ∈ s.timers →
      resp.status ≠ some "processing" → t ∉ (stepTick t resp s).timers) := by
  obtain ⟨hlen, hall⟩ := pollInv_reachable h
  refine ⟨hlen, ?_, ?_⟩
  · intro t ht
    obtain ⟨_, _, _, cur, hcur, hst, _⟩ := hall t ht
    exact ⟨cur, hcur, hst⟩
  · intro t resp hmem hr
    obtain ⟨hp, hsp, hid, cur, hcur, hst, hjid⟩ := hall t hmem
    have htimers : s.timers = [t] := mem_of_length_le_one hmem hlen
    have herase : s.timers.erase t = [] := by
      rw [htimers]
      simp
    simp only [stepTick, if_neg hr]
    split
    case isTrue hc =>
        simp [herase]
    case isFalse hc =>
        intro hmem'
        rcases effectRun_mem hmem' with hin | hidn
        · rw [clearPrev_of_nil (by simp [herase])] at hin
          simp at hin
        · exact absurd hidn (by simpa using Nat.ne_of_lt hid)

/-- Witness for C8: the polling discipline instantiated at the initial
(mount-time) state, which is reachable by construction. -/
theorem polling_discipline_witness :
    pollInit.timers.length ≤ 1 ∧
    (∀ t ∈ pollInit.timers, ∃ cur, pollInit.store.currentJob = some cur ∧
      cur.status = some "processing") ∧
    (∀ (t : PollTimer) (resp : JobObj), t ∈ pollInit.timers →
      resp.status ≠ some "processing" → t ∉ (stepTick t resp pollInit).timers) :=
  polling_discipline pollInit PollReachable.init

end Visualix
